import Mathlib

/-!
Shallow embedding of the PyMolAI agent runtime, chat store, doom-loop
detector and SDK loop (modules/pymol/ai/runtime.py, doom_loop_detector.py,
claude_sdk_loop.py and modules/pmg_qt/ai_chat_store.py of the PyMolAI
repository), together with theorems settling the frozen claims about them.

Modelling conventions: Python strings are Lean strings (lists of
characters); Python dicts that the code only serializes are modelled by
the fields the code reads plus, where equality of serializations matters,
by the dict itself (json.dumps with sort_keys is a canonical injective
serialization); wall-clock timestamps are threaded as explicit string
parameters; thread scheduling is modelled by explicit state passing.
-/

namespace PyMolAI

/-- Characters removed by Python str.strip (ASCII whitespace; the inputs
relevant here are ASCII): space, tab, newline, carriage return, vertical
tab, form feed. -/
def isPySpace (c : Char) : Bool :=
  decide (c.toNat = 32 ∨ c.toNat = 9 ∨ c.toNat = 10 ∨ c.toNat = 13 ∨ c.toNat = 11 ∨ c.toNat = 12)

/-- Python str.strip on a character list. -/
def pyStripList (l : List Char) : List Char :=
  ((l.dropWhile isPySpace).reverse.dropWhile isPySpace).reverse

/-- Python str.strip. -/
def pyStrip (s : String) : String := ⟨pyStripList s.data⟩

/-- Python str.lower (ASCII case mapping; the inputs relevant here are ASCII). -/
def pyLower (s : String) : String := ⟨s.data.map Char.toLower⟩

/-- Python substring test (sub in s) on character lists. -/
def strContainsList : List Char → List Char → Bool
  | [], sub => sub.isEmpty
  | h :: t, sub => sub.isPrefixOf (h :: t) || strContainsList t sub

/-- Python substring test: sub in s. -/
def strContains (s sub : String) : Bool := strContainsList s.data sub.data

/-- Python str.startswith. -/
def strStarts (s pre : String) : Bool := pre.data.isPrefixOf s.data

/-- Python falsy-string fallback: s or dflt. -/
def pyOrStr (s dflt : String) : String := if s = "" then dflt else s

/-- Python truthiness of an Optional[str]: None and the empty string are falsy. -/
def pyTruthyStr (o : Option String) : Bool :=
  match o with
  | some s => !(s = "")
  | none => false

/-- Python list slicing l[-n:]: the most recent at most n entries. -/
def lastN (n : Nat) (l : List α) : List α := l.drop (l.length - n)

/-! ## message_types.py -/

/-- UiRole (message_types.py lines 8-15). -/
inductive UiRole where
  | user
  | ai
  | toolStart
  | toolResult
  | system
  | reasoning
  | error
deriving DecidableEq

/-- UiEvent (message_types.py lines 18-25); the open metadata map is
modelled as a string-valued association list. -/
structure UiEvent where
  role : UiRole
  text : String
  ok : Option Bool
  metadata : List (String × String)
deriving DecidableEq

/-- A SYSTEM UiEvent with the given text and no metadata. -/
def systemEvent (text : String) : UiEvent :=
  { role := UiRole.system, text := text, ok := none, metadata := [] }

/-! ## claude_sdk_loop.py -/

/-- SdkTurnResult (claude_sdk_loop.py lines 17-23). -/
structure SdkTurnResult where
  assistantText : String
  sessionId : Option String
  error : Option String
  errorClass : Option String
  interrupted : Bool
deriving DecidableEq

/-- The error-classification heuristic _classify_error (claude_sdk_loop.py
lines 125-135).  Python operator precedence makes the first condition
("resume" in low) or (("session" in low) and (...)). -/
def classifyError (message : String) : String :=
  let low := pyLower message
  if strContains low "resume" ||
      (strContains low "session" &&
        (strContains low "not found" || strContains low "invalid" || strContains low "expired")) then
    "resume_invalid"
  else if strContains low "auth" || strContains low "api key" ||
      strContains low "401" || strContains low "403" then
    "auth_error"
  else if strContains low "cancel" || strContains low "interrupt" then
    "cancelled"
  else if strContains low "rate" || strContains low "429" then
    "rate_limited"
  else
    "sdk_error"

/-! ## doom_loop_detector.py -/

/-- A tool-call arguments dict.  _normalize_args serializes the dict with
json.dumps(..., sort_keys=True), a canonical injective serialization, so
equality of normalized argument strings is equality of the dicts and the
dict itself is the faithful model of the normalized form.  The command
field is the value arguments.get("command") that _command_family reads
(None when absent or not a string); rest stands for the remaining
key-value pairs of the dict. -/
structure ToolArgs where
  command : Option String
  rest : List (String × String)
deriving DecidableEq

/-- A raw signature tuple (tool_name, normalized arguments, validation flag)
as stored in the detector window (doom_loop_detector.py line 85). -/
abbrev Sig := String × ToolArgs × Bool

/-- First whitespace-delimited token, command.split(None, 1)[0], of a
string (used on a stripped non-empty command). -/
def firstToken (l : List Char) : List Char :=
  (l.dropWhile isPySpace).takeWhile (fun c => !isPySpace c)

/-- DoomLoopDetector._command_family (doom_loop_detector.py lines 32-39). -/
def commandFamily (toolName : String) (arguments : ToolArgs) : String :=
  if toolName = "run_pymol_command" then
    let command := pyLower (pyStrip (arguments.command.getD ""))
    if command = "" then "run_pymol_command"
    else "cmd:" ++ ⟨firstToken command.data⟩
  else
    let base := if toolName = "" then "unknown" else toolName
    let t := pyLower (pyStrip base)
    if t = "" then "unknown" else t

/-- Append x to a deque with the given maxlen, discarding the oldest
entries beyond the bound (collections.deque(maxlen=...) append). -/
def pushMax (maxlen : Nat) (xs : List α) (x : α) : List α :=
  let ys := xs ++ [x]
  ys.drop (ys.length - maxlen)

/-- Fold pushMax over a list of appended values. -/
def pushAll (maxlen : Nat) (init : List α) (xs : List α) : List α :=
  xs.foldl (pushMax maxlen) init

/-- The distinct values of a sequence in first-occurrence order, modelling
set(seq) up to its cardinality (doom_loop_detector.py line 45). -/
def distinctVals (seq : List String) : List String :=
  seq.foldl (fun acc x => if x ∈ acc then acc else acc ++ [x]) []

/-- Every element equals the element two positions before it
(doom_loop_detector.py lines 48-50). -/
def altCheck2 : List String → Bool
  | x :: y :: z :: rest => decide (x = z) && altCheck2 (y :: z :: rest)
  | _ => true

/-- No two adjacent elements are equal (doom_loop_detector.py lines 51-53). -/
def adjAllDistinct : List String → Bool
  | x :: y :: rest => !(decide (x = y)) && adjAllDistinct (y :: rest)
  | _ => true

/-- DoomLoopDetector._is_oscillation (doom_loop_detector.py lines 41-54). -/
def isOscillation (seq : List String) : Bool :=
  if seq.length < 3 then false
  else if !(decide ((distinctVals seq).length = 2)) then false
  else altCheck2 seq && adjAllDistinct seq

/-- A doom-loop report dict (the dicts built in add_call,
doom_loop_detector.py lines 95-117). -/
structure LoopReport where
  toolName : String
  callCount : Nat
  loopType : String
  commandFamilyValue : Option String
  commandFamilySequence : Option (List String)
deriving DecidableEq

/-- DoomLoopDetector state (doom_loop_detector.py lines 11-15): the three
bounded windows.  threshold is max(2, threshold) from the constructor. -/
structure DoomLoopDetector where
  threshold : Nat
  recent : List Sig
  recentFamilies : List String
  recentIntents : List String
deriving DecidableEq

/-- DoomLoopDetector.__init__ (doom_loop_detector.py lines 11-15). -/
def initDetector (threshold : Nat) : DoomLoopDetector :=
  { threshold := max 2 threshold
    recent := []
    recentFamilies := []
    recentIntents := [] }

/-- The report-computation part of DoomLoopDetector.add_call
(doom_loop_detector.py lines 90-119), evaluated on the already-updated
windows: the length guard, the exact-match check, then the
command-family repeat and oscillation checks on the last threshold
families. -/
def addCallReport (threshold : Nat) (toolName : String) (recent : List Sig)
    (families : List String) : Option LoopReport :=
  if recent.length < threshold then none
  else
    match recent with
    | [] => none
    | first :: rest =>
      if (first :: rest).all (fun item => decide (item = first)) then
        some { toolName := toolName, callCount := threshold, loopType := "exact_match"
               commandFamilyValue := none, commandFamilySequence := none }
      else if threshold ≤ families.length then
        let window := families.drop (families.length - threshold)
        match window with
        | [] => none
        | w :: ws =>
          if (w :: ws).all (fun f => decide (f = w)) then
            some { toolName := toolName, callCount := threshold
                   loopType := "command_family_repeat"
                   commandFamilyValue := some w, commandFamilySequence := none }
          else if isOscillation (w :: ws) then
            some { toolName := toolName, callCount := threshold
                   loopType := "command_family_oscillation"
                   commandFamilyValue := none, commandFamilySequence := some (w :: ws) }
          else none
      else none

/-- DoomLoopDetector.add_call (doom_loop_detector.py lines 76-119):
capture_viewer_snapshot is exempt; otherwise the signature and family
windows are updated and the report checks run on the updated windows. -/
def addCall (d : DoomLoopDetector) (toolName : String) (arguments : ToolArgs)
    (validationRequired : Bool) : DoomLoopDetector × Option LoopReport :=
  if toolName = "capture_viewer_snapshot" then (d, none)
  else
    let sig : Sig := (toolName, arguments, validationRequired)
    let recent := pushMax d.threshold d.recent sig
    let family := commandFamily toolName arguments
    let families := pushMax (max 4 d.threshold) d.recentFamilies family
    let d' := { d with recent := recent, recentFamilies := families }
    (d', addCallReport d.threshold toolName recent families)

/-- Feed a list of (tool_name, arguments, validation_required) calls to
add_call in order, collecting each call's returned report. -/
def feedCalls : DoomLoopDetector → List (String × ToolArgs × Bool) →
    DoomLoopDetector × List (Option LoopReport)
  | d, [] => (d, [])
  | d, c :: cs =>
      let step := addCall d c.1 c.2.1 c.2.2
      let rest := feedCalls step.1 cs
      (rest.1, step.2 :: rest.2)

/-- The list a :: b :: a :: b :: ... of length n (an alternating feed of
two calls or two families). -/
def altList (a b : α) : Nat → List α
  | 0 => []
  | n + 1 => a :: altList b a n

/-- The last element of altList a b (n + 1): a at even n, b at odd n. -/
def altLast (a b : α) (n : Nat) : α := if n % 2 = 0 then a else b

/-! ## runtime.py: UI event queue, admission control, worker -/

/-- The hidden-system-message heads _HIDDEN_SYSTEM_PREFIXES
(runtime.py lines 48-51). -/
def hiddenSystemHeads : List String :=
  ["Validation required:", "Visual validation required now:"]

/-- AiRuntime._is_internal_system_reminder (runtime.py lines 262-265). -/
def isInternalSystemReminder (text : String) : Bool :=
  hiddenSystemHeads.any (fun p => strStarts text p)

/-- Text of the compaction notice event (runtime.py line 290). -/
def compactionNoticeText : String := "chat output compacted to keep UI responsive"

/-- The marker protecting compaction notices from being dropped
(runtime.py line 276). -/
def compactionMarkerText : String := "compacted to keep UI responsive"

/-- The compaction notice UiEvent (runtime.py lines 287-292). -/
def compactionNoticeEvent : UiEvent := systemEvent compactionNoticeText

/-- An event the drop_index helper may select: REASONING or SYSTEM role and
not itself a compaction notice (runtime.py lines 273-279). -/
def isDroppableEvent (e : UiEvent) : Bool :=
  (decide (e.role = UiRole.reasoning) || decide (e.role = UiRole.system)) &&
    !(strContains e.text compactionMarkerText)

/-- One list.pop(drop_index()) step (runtime.py lines 273-282): remove the
first droppable entry, or entry 0 when no droppable entry exists. -/
def dropOnceEvent : List UiEvent → List UiEvent
  | [] => []
  | e :: rest =>
      if isDroppableEvent e then rest
      else if rest.any isDroppableEvent then e :: dropOnceEvent rest
      else rest

/-- Iterate dropOnceEvent n times (the while-loop of
_compact_ui_events_locked removes exactly one entry per iteration). -/
def iterDropEvents : Nat → List UiEvent → List UiEvent
  | 0, l => l
  | n + 1, l => iterDropEvents n (dropOnceEvent l)

/-- AiRuntime._compact_ui_events_locked (runtime.py lines 267-293) on the
queue and the notice-sent flag: no-op at capacity 0 or when within
capacity; otherwise trim to capacity, then, when the notice was not yet
sent, free one more slot and append one compaction notice. -/
def compactUiEventsLocked (uiMaxEvents : Nat) (noticeSent : Bool)
    (events : List UiEvent) : List UiEvent × Bool :=
  if uiMaxEvents = 0 then (events, noticeSent)
  else if events.length ≤ uiMaxEvents then (events, noticeSent)
  else
    let trimmed := iterDropEvents (events.length - uiMaxEvents) events
    if noticeSent then (trimmed, noticeSent)
    else
      let trimmed2 := if uiMaxEvents ≤ trimmed.length then dropOnceEvent trimmed else trimmed
      (trimmed2 ++ [compactionNoticeEvent], true)

/-- A history message dict (the role-tagged entries of AiRuntime.history;
tool messages carry tool_call_id and name). -/
structure HistMessage where
  role : String
  content : String
  toolCallId : Option String
  name : Option String
deriving DecidableEq

/-- The AiRuntime state touched by the modelled operations
(runtime.py __init__, lines 68-121).  The streaming buffers, logger and
cmd handle are not read by the modelled operations. -/
structure RuntimeState where
  busy : Bool
  cancelEventSet : Bool
  uiMode : String
  uiMaxEvents : Nat
  uiEvents : List UiEvent
  uiCompactionNoticeSent : Bool
  inputMode : String
  history : List HistMessage
  sdkSessionId : Option String
  agentBackend : String
  model : String
  enabled : Bool
  reasoningVisible : Bool
  finalAnswerEnabled : Bool
deriving DecidableEq

/-- AiRuntime.emit_ui_event (runtime.py lines 242-260): hidden internal
system reminders are discarded; otherwise the event is appended under the
event lock and the queue compacted.  The text-mode print is I/O and not
modelled. -/
def emitUiEvent (event : UiEvent) (st : RuntimeState) : RuntimeState :=
  if event.role = UiRole.system ∧ isInternalSystemReminder event.text = true then st
  else
    let compacted := compactUiEventsLocked st.uiMaxEvents st.uiCompactionNoticeSent
      (st.uiEvents ++ [event])
    { st with uiEvents := compacted.1, uiCompactionNoticeSent := compacted.2 }

/-- AiRuntime.drain_ui_events (runtime.py lines 299-310): return and remove
the first limit entries (all of them when limit is None); the compaction
notice flag resets when the queue empties. -/
def drainUiEvents (limit : Option Nat) (st : RuntimeState) : List UiEvent × RuntimeState :=
  match limit with
  | none => (st.uiEvents, { st with uiEvents := [], uiCompactionNoticeSent := false })
  | some n =>
      let out := st.uiEvents.take n
      let rest := st.uiEvents.drop n
      (out, { st with uiEvents := rest,
                      uiCompactionNoticeSent :=
                        if rest.isEmpty then false else st.uiCompactionNoticeSent })

/-- The busy-rejection system event (runtime.py line 451). -/
def requestInProgressEvent : UiEvent := systemEvent "request already in progress"

/-- AiRuntime._start_agent_request admission control (runtime.py lines
447-463): under the lock, a busy runtime emits the rejection notice and
starts nothing; otherwise busy is set, the cancel event cleared and a
worker thread started.  Returns the new state, whether a worker thread
was started, and the list of events passed to emit_ui_event. -/
def startAgentRequest (st : RuntimeState) : RuntimeState × Bool × List UiEvent :=
  if st.busy then
    (emitUiEvent requestInProgressEvent st, false, [requestInProgressEvent])
  else
    ({ st with busy := true, cancelEventSet := false }, true, [])

/-- AiRuntime._agent_worker (runtime.py lines 630-879) with the body of its
try/except block (lines 645-874, including the except clause, which
handles any exception and falls through) abstracted as an arbitrary state
transformer: the finally block (lines 875-878) unconditionally resets
busy under the lock and clears the cancel event. -/
def agentWorker (body : RuntimeState → RuntimeState) (st : RuntimeState) : RuntimeState :=
  let afterBody := body st
  { afterBody with busy := false, cancelEventSet := false }

/-! ## runtime.py: tool-result truncation -/

/-- A tool-result payload dict {ok, command, error, feedback_lines};
serialized models json.dumps(payload, ensure_ascii=False), which is
injective on these dicts, as a character list. -/
structure ToolResultPayload where
  serialized : List Char
deriving DecidableEq

/-- The suffix appended to truncated previews (runtime.py line 601). -/
def truncationMarker : List Char := "... [truncated]".data

/-- The value recorded in UiEvent metadata for a tool result: either the
payload itself or a truncation envelope dict with truncated set to true
and the preview string. -/
inductive MetadataPayload where
  | passthrough (payload : ToolResultPayload)
  | truncatedEnvelope (preview : List Char)
deriving DecidableEq

/-- AiRuntime._tool_result_metadata_payload (runtime.py lines 595-602). -/
def toolResultMetadataPayload (toolResultMaxChars : Nat)
    (payload : ToolResultPayload) : MetadataPayload :=
  if payload.serialized.length ≤ toolResultMaxChars then
    MetadataPayload.passthrough payload
  else
    MetadataPayload.truncatedEnvelope (payload.serialized.take toolResultMaxChars ++ truncationMarker)

/-! ## runtime.py: command canonicalization -/

/-- Python ord c is between lo and hi inclusive. -/
def charBetween (lo hi : Nat) (c : Char) : Bool :=
  decide (lo ≤ c.toNat ∧ c.toNat ≤ hi)

/-- A character of the regex class [0-9]. -/
def isAsciiDigit (c : Char) : Bool := charBetween 48 57 c

/-- A character of the regex class [A-Za-z0-9]. -/
def isPdbIdChar (c : Char) : Bool :=
  isAsciiDigit c || charBetween 65 90 c || charBetween 97 122 c

/-- _RE_PDB_ID.match(arg) (runtime.py line 47): the anchored regex
[0-9][A-Za-z0-9]{3} matches arg exactly (arg is already stripped, so the
end anchor means exactly four characters). -/
def rePdbIdMatch (arg : String) : Bool :=
  match arg.data with
  | [c0, c1, c2, c3] => isAsciiDigit c0 && isPdbIdChar c1 && isPdbIdChar c2 && isPdbIdChar c3
  | _ => false

/-- AiRuntime._canonicalize_command (runtime.py lines 526-533): a stripped
command whose lowercase form starts with "load " and whose remainder is a
four-character structure identifier (with no dot or path separator) is
rewritten to the fetch form, with a translation note; every other command
is passed through stripped, with no note. -/
def canonicalizeCommand (command : String) : String × Option String :=
  let stripped := pyStrip command
  let low := pyLower stripped
  if strStarts low "load " then
    let arg := pyStrip ⟨stripped.data.drop 5⟩
    if rePdbIdMatch arg && !(arg.data.contains '.') && !(arg.data.contains '/') &&
        !(arg.data.contains '\\') then
      ("fetch " ++ arg, some ("translated load " ++ arg ++ " -> fetch " ++ arg))
    else (stripped, none)
  else (stripped, none)

/-- The canonicalization step shared by _execute_cli_command (runtime.py
lines 556-558) and execute_run_command_tool (lines 682-685): the command
is canonicalized and, when a note is produced, exactly one SYSTEM UiEvent
with that note is emitted.  Returns the command that will be executed and
the list of events emitted by this step. -/
def executeCommandCanonicalization (command : String) : String × List UiEvent :=
  let fixed := canonicalizeCommand command
  match fixed.2 with
  | some note => (fixed.1, [systemEvent note])
  | none => (fixed.1, [])

/-! ## runtime.py: turn prompt and resume retry -/

/-- AiRuntime._build_turn_prompt (runtime.py lines 480-502):
state summary JSON, optionally the filtered last 40 history entries, then
the user request, joined by newlines.  stateSummaryJson abstracts
json.dumps of the viewer state snapshot. -/
def buildTurnPrompt (stateSummaryJson : String) (history : List HistMessage)
    (prompt : String) (includeHistoryContext : Bool) : String :=
  let base := ["Current viewer state (compact JSON):", stateSummaryJson]
  let withHistory :=
    if includeHistoryContext then
      base ++ ["", "Conversation context:"] ++
        ((lastN 40 history).filterMap (fun msg =>
          let role := pyStrip msg.role
          if role = "user" ∨ role = "assistant" ∨ role = "system" then
            let content := pyStrip msg.content
            if content = "" then none
            else some (role ++ ": " ++ (⟨content.data.take 500⟩ : String))
          else none))
    else base
  String.intercalate "\n" (withHistory ++ ["", "User request:", prompt])

/-- The resume-retry segment of AiRuntime._agent_worker (runtime.py lines
811-829).  sdkTurn abstracts run_sdk_turn as a function of the two
arguments that vary between the calls (the request prompt and the resume
session id); cancelRequested models _cancel_event.is_set(), which
check_cancel reads.  Returns the (prompt, resume id) argument pairs
passed to the SDK in order, the result the segment ends with, and the
cached session id after line 826. -/
def agentTurnSdkCalls (sdkTurn : String → Option String → SdkTurnResult)
    (stateSummaryJson : String) (history : List HistMessage) (prompt : String)
    (sdkSessionId : Option String) (cancelRequested : Bool) :
    List (String × Option String) × SdkTurnResult × Option String :=
  let turnPrompt := buildTurnPrompt stateSummaryJson history prompt false
  let result := sdkTurn turnPrompt sdkSessionId
  if result.errorClass = some "resume_invalid" ∧ pyTruthyStr sdkSessionId = true ∧
      cancelRequested = false then
    let retryPrompt := buildTurnPrompt stateSummaryJson history prompt true
    ([(turnPrompt, sdkSessionId), (retryPrompt, none)], sdkTurn retryPrompt none, none)
  else
    ([(turnPrompt, sdkSessionId)], result, sdkSessionId)

/-! ## runtime.py: session state export/import -/

/-- The model_info sub-dict of an exported session state; Option models
key presence, which import_session_state tests with the in operator. -/
structure ModelInfo where
  modelId : String
  enabled : Option Bool
  reasoningVisible : Option Bool
  finalAnswerEnabled : Option Bool
deriving DecidableEq

/-- An exported session-state dict (runtime.py lines 192-204). -/
structure SessionState where
  inputMode : String
  history : List HistMessage
  backend : String
  sdkSessionId : Option String
  modelInfo : ModelInfo
deriving DecidableEq

/-- AiRuntime.export_session_state (runtime.py lines 192-204). -/
def exportSessionState (st : RuntimeState) : SessionState :=
  { inputMode := if st.inputMode = "cli" then "cli" else "ai"
    history := lastN 80 st.history
    backend := st.agentBackend
    sdkSessionId := st.sdkSessionId
    modelInfo :=
      { modelId := st.model
        enabled := some st.enabled
        reasoningVisible := some st.reasoningVisible
        finalAnswerEnabled := some st.finalAnswerEnabled } }

/-- The payload dict(state or empty-dict) sees when state is None: every
get falls back to its default. -/
def emptySessionState : SessionState :=
  { inputMode := ""
    history := []
    backend := ""
    sdkSessionId := none
    modelInfo := { modelId := "", enabled := none, reasoningVisible := none
                   finalAnswerEnabled := none } }

/-- AiRuntime.import_session_state (runtime.py lines 206-240); the
streaming buffers it clears are not part of the modelled state. -/
def importSessionState (state : Option SessionState) (applyModel : Bool)
    (st : RuntimeState) : RuntimeState :=
  let payload := state.getD emptySessionState
  let mode := if pyLower payload.inputMode = "cli" then "cli" else "ai"
  let backend := if payload.backend = "" then "claude_sdk" else payload.backend
  let sessionId := pyStrip (payload.sdkSessionId.getD "")
  let sid := if sessionId = "" then none else some sessionId
  let st1 := { st with inputMode := mode, agentBackend := backend,
                       sdkSessionId := sid, history := lastN 80 payload.history }
  if applyModel then
    let mi := payload.modelInfo
    let st2 := if pyStrip mi.modelId = "" then st1 else { st1 with model := pyStrip mi.modelId }
    let st3 := match mi.enabled with
      | some b => { st2 with enabled := b }
      | none => st2
    match mi.reasoningVisible with
    | some b => { st3 with reasoningVisible := b }
    | none => st3
  else st1

/-- The runtime state AiRuntime.__init__ (runtime.py lines 68-121)
produces with no environment overrides (defaults for every _env lookup
and no API key configured, so enabled is false): a fresh runtime. -/
def freshRuntime : RuntimeState :=
  { busy := false
    cancelEventSet := false
    uiMode := "text"
    uiMaxEvents := 2000
    uiEvents := []
    uiCompactionNoticeSent := false
    inputMode := "ai"
    history := []
    sdkSessionId := none
    agentBackend := "claude_sdk"
    model := "anthropic/claude-sonnet-4"
    enabled := false
    reasoningVisible := false
    finalAnswerEnabled := true }

/-! ## ai_chat_store.py -/

/-- A persisted event record as built by _normalize_event
(ai_chat_store.py lines 322-328); metadataJson models the
JSON-serializable metadata (with the raw-string fallback already
applied), since the store only serializes it. -/
structure EventRecord where
  ts : String
  role : String
  text : String
  ok : Option Bool
  metadataJson : String
deriving DecidableEq

/-- An event passed to append_events: either a plain dict (Option models
key presence for the keys read with get) or an attribute-bearing UiEvent
style object whose role has already been projected to its string value. -/
inductive RawChatEvent where
  | dictEvent (role : Option String) (text : Option String) (ok : Option Bool)
      (metadataJson : String) (ts : Option String)
  | objEvent (role : String) (text : String) (ok : Option Bool) (metadataJson : String)
deriving DecidableEq

/-- AiChatStore._normalize_event (ai_chat_store.py lines 302-329); now is
_now_iso().  Non-bool ok values and non-serializable metadata are folded
into the model of the input. -/
def normalizeRawChatEvent (now : String) : RawChatEvent → EventRecord
  | RawChatEvent.dictEvent role text ok metadataJson ts =>
      { ts := pyOrStr (ts.getD "") now
        role := pyOrStr (role.getD "system") "system"
        text := text.getD ""
        ok := ok
        metadataJson := metadataJson }
  | RawChatEvent.objEvent role text ok metadataJson =>
      { ts := now
        role := pyOrStr role "system"
        text := text
        ok := ok
        metadataJson := metadataJson }

/-- AiChatStore._first_line (ai_chat_store.py lines 66-71) with its default
max_len of 160: the stripped first line, truncated with an ellipsis.
splitlines is modelled on the newline and carriage-return terminators. -/
def firstLine (text : String) : String :=
  let line := pyStrip ⟨text.data.takeWhile (fun c => !(decide (c = '\n') || decide (c = '\x0d')))⟩
  if 160 < line.data.length then (⟨line.data.take 159⟩ : String) ++ "..." else line

/-- AiChatStore._slug (ai_chat_store.py lines 58-64). -/
def pySlug (text : String) (fallback : String) (maxLen : Nat) : String :=
  let raw := text.data.map (fun c => if c.isAlphanum then c.toLower else '-')
  let joined := List.intercalate ['-'] ((raw.splitOn '-').filter (fun p => !p.isEmpty))
  let base := if joined.isEmpty then fallback.data else joined
  ⟨base.take maxLen⟩

/-- The title derived from the first user preview (ai_chat_store.py line
379): stamp, a dash, and the 28-character slug with dashes spaced. -/
def titleFromPreview (stamp preview : String) : String :=
  stamp ++ " - " ++ ⟨(pySlug preview "chat" 28).data.map (fun c => if c = '-' then ' ' else c)⟩

/-- The manifest fields read or written by the modelled operations
(ai_chat_store.py _new_manifest, lines 78-103; the runtime_state and
save_status sub-dicts are carried opaquely by operations modelled
here and are omitted). -/
structure ChatManifest where
  chatId : String
  title : String
  createdAt : String
  updatedAt : String
  lastOpenedAt : String
  preview : String
  messageCount : Nat
  hasSessionPse : Bool
deriving DecidableEq

/-- An index row projection (ai_chat_store.py lines 118-129) reduced to
the fields the modelled operations read, plus the tombstone flag. -/
structure IndexRow where
  chatId : String
  messageCount : Nat
  deleted : Bool
deriving DecidableEq

/-- AiChatStore._index_row_from_manifest, restricted to the modelled
fields. -/
def indexRowFromManifest (m : ChatManifest) : IndexRow :=
  { chatId := m.chatId, messageCount := m.messageCount, deleted := false }

/-- AiChatStore._is_visible_chat_row (ai_chat_store.py lines 131-133). -/
def isVisibleChatRow (r : IndexRow) : Bool := decide (0 < r.messageCount)

/-- Replace the binding of key k in an association list (dict update;
binding order is not observed by the modelled operations). -/
def setAssoc (k : String) (v : IndexRow) (l : List (String × IndexRow)) :
    List (String × IndexRow) :=
  l.filter (fun p => !(decide (p.1 = k))) ++ [(k, v)]

/-- Remove the binding of key k from an association list (dict.pop). -/
def popAssoc (k : String) (l : List (String × IndexRow)) : List (String × IndexRow) :=
  l.filter (fun p => !(decide (p.1 = k)))

/-- The AiChatStore state touched by the modelled operations
(ai_chat_store.py __init__, lines 22-52).  eventsFileLines is the content
of the current chat's events.jsonl, one entry per line; every line is the
json.dumps image of an EventRecord and hence a parseable JSON line.
flushScheduled models _flush_due_at being set; the scene/checkpoint
fields are untouched by the modelled operations. -/
structure AiChatStore where
  currentChatId : Option String
  currentChatDir : Option String
  manifest : Option ChatManifest
  eventsFileLines : List EventRecord
  pendingEventLines : List EventRecord
  manifestDirty : Bool
  indexDirty : Bool
  flushScheduled : Bool
  indexLog : List IndexRow
  indexLatest : List (String × IndexRow)
deriving DecidableEq

/-- The per-event body of the append_events loop (ai_chat_store.py lines
366-380), acting on the manifest, the pending line buffer and the
first-user-captured flag. -/
def appendOneEvent (now stamp : String) (acc : ChatManifest × List EventRecord × Bool)
    (event : RawChatEvent) : ChatManifest × List EventRecord × Bool :=
  let record := normalizeRawChatEvent now event
  let pending := acc.2.1 ++ [record]
  let preview := firstLine record.text
  let m :=
    { acc.1 with messageCount := acc.1.messageCount + 1,
                 updatedAt := record.ts,
                 preview := if preview = "" then acc.1.preview else preview }
  if acc.2.2 ∧ record.role = "user" ∧ preview ≠ "" then
    ({ m with title := titleFromPreview stamp preview }, pending, false)
  else
    (m, pending, acc.2.2)

/-- AiChatStore.append_events (ai_chat_store.py lines 359-387): a no-op
returning 0 unless a manifest is loaded and chat_id is the current chat;
otherwise every event is normalized, buffered as one journal line and
counted into the manifest, the first user preview may retitle the chat,
and a non-empty batch marks the manifest and index dirty and schedules a
flush.  now is _now_iso() and stamp the strftime stamp of line 378. -/
def appendEvents (now stamp chatId : String) (events : List RawChatEvent)
    (st : AiChatStore) : Nat × AiChatStore :=
  match st.manifest with
  | none => (0, st)
  | some m =>
      if st.currentChatId = some chatId then
        let folded := events.foldl (appendOneEvent now stamp)
          (m, st.pendingEventLines, decide (m.messageCount = 0))
        let st' := { st with manifest := some folded.1, pendingEventLines := folded.2.1 }
        if events.length = 0 then (0, st')
        else (events.length,
          { st' with manifestDirty := true, indexDirty := true, flushScheduled := true })
      else (0, st)

/-- AiChatStore.flush_now (ai_chat_store.py lines 454-479): without a
loaded manifest and chat directory only the deadline clears; otherwise
pending journal lines are written through to events.jsonl, a dirty
manifest is atomically rewritten, and a dirty index appends a fresh row
(or a tombstone for a chat that became invisible), after which the
deadline clears. -/
def flushNow (st : AiChatStore) : AiChatStore :=
  match st.manifest, st.currentChatDir with
  | some m, some _ =>
      let st1 := { st with eventsFileLines := st.eventsFileLines ++ st.pendingEventLines,
                           pendingEventLines := [] }
      let st2 := { st1 with manifestDirty := false }
      let st3 :=
        if st2.indexDirty then
          let row := indexRowFromManifest m
          if isVisibleChatRow row then
            { st2 with indexLatest := setAssoc (st2.currentChatId.getD "") row st2.indexLatest,
                       indexLog := st2.indexLog ++ [row],
                       indexDirty := false }
          else if (st2.indexLatest.any (fun p => decide (p.1 = st2.currentChatId.getD ""))) then
            { st2 with indexLatest := popAssoc (st2.currentChatId.getD "") st2.indexLatest,
                       indexLog := st2.indexLog ++
                         [{ chatId := st2.currentChatId.getD "", messageCount := 0,
                            deleted := true }],
                       indexDirty := false }
          else { st2 with indexDirty := false }
        else st2
      { st3 with flushScheduled := false }
  | _, _ => { st with flushScheduled := false }

/-- The manifest message_count of a store (0 when no chat is loaded). -/
def manifestMessageCount (st : AiChatStore) : Nat :=
  match st.manifest with
  | some m => m.messageCount
  | none => 0

/-- Fold a sequence of append_events batches for the same chat over the
store. -/
def appendBatches (now stamp chatId : String) (batches : List (List RawChatEvent))
    (st : AiChatStore) : AiChatStore :=
  batches.foldl (fun s b => (appendEvents now stamp chatId b s).2) st

/-- A freshly created chat manifest with no messages (the shape
_new_manifest produces, restricted to the modelled fields). -/
def exampleManifest : ChatManifest :=
  { chatId := "c"
    title := "t"
    createdAt := "t0"
    updatedAt := "t0"
    lastOpenedAt := "t0"
    preview := ""
    messageCount := 0
    hasSessionPse := false }

/-- A store with the example chat current and an empty journal. -/
def exampleStore : AiChatStore :=
  { currentChatId := some "c"
    currentChatDir := some "dir"
    manifest := some exampleManifest
    eventsFileLines := []
    pendingEventLines := []
    manifestDirty := false
    indexDirty := false
    flushScheduled := false
    indexLog := []
    indexLatest := [] }

/-- One append_events batch holding a single user event. -/
def exampleBatches : List (List RawChatEvent) :=
  [[RawChatEvent.objEvent "user" "hello" none "meta"]]

/-- A concrete cli-mode runtime with one history entry and a clean
resumption token. -/
def exampleCliRuntime : RuntimeState :=
  { freshRuntime with
      inputMode := "cli"
      history := [{ role := "user", content := "hi", toolCallId := none, name := none }]
      sdkSessionId := some "tok" }

/-! ## Theorems -/

/-- Claim C10: the error classifier _classify_error is total over the
five-label taxonomy, and any message containing "resume"
(case-insensitively) is classified resume_invalid regardless of the rest
of the message, since Python operator precedence disjoins the "resume"
test ahead of the session-invalidity conjunction. -/
theorem classifyError_total_and_resume_short_circuits (msg : String) :
    (classifyError msg = "resume_invalid" ∨ classifyError msg = "auth_error" ∨
      classifyError msg = "cancelled" ∨ classifyError msg = "rate_limited" ∨
      classifyError msg = "sdk_error") ∧
    (strContains (pyLower msg) "resume" = true → classifyError msg = "resume_invalid") := by
  constructor
  · unfold classifyError
    dsimp only
    split_ifs <;> simp
  · intro h
    unfold classifyError
    dsimp only
    simp [h]

/-- Witness for C10 at a concrete error message whose lowercase form
contains "resume" but also matches later branches ("401"). -/
theorem classifyError_witness :
    strContains (pyLower "Resume rejected with 401") "resume" = true ∧
    classifyError "Resume rejected with 401" = "resume_invalid" :=
  ⟨by decide, (classifyError_total_and_resume_short_circuits "Resume rejected with 401").2 (by decide)⟩

/-- Claim C4: a tool-result payload serialized beyond the configured
character budget is replaced by a truncation envelope whose preview has
length exactly budget plus the length of the "... [truncated]" marker,
and a payload at or under the budget passes through unchanged. -/
theorem toolResultMetadataPayload_truncation (budget : Nat) (payload : ToolResultPayload) :
    (budget < payload.serialized.length →
      toolResultMetadataPayload budget payload =
        MetadataPayload.truncatedEnvelope (payload.serialized.take budget ++ truncationMarker) ∧
      (payload.serialized.take budget ++ truncationMarker).length =
        budget + truncationMarker.length) ∧
    (payload.serialized.length ≤ budget →
      toolResultMetadataPayload budget payload = MetadataPayload.passthrough payload) := by
  constructor
  · intro h
    refine ⟨by unfold toolResultMetadataPayload; rw [if_neg (by omega)], ?_⟩
    simp only [List.length_append, List.length_take]
    omega
  · intro h
    unfold toolResultMetadataPayload
    rw [if_pos h]

/-- Witness for C4: a ten-character payload against a budget of four is
truncated to a preview of length 4 + 15, and the same payload is passed
through under a budget of ten. -/
theorem toolResultMetadataPayload_witness :
    (4 < ("0123456789".data.length) ∧
      toolResultMetadataPayload 4 { serialized := "0123456789".data } =
        MetadataPayload.truncatedEnvelope ("0123456789".data.take 4 ++ truncationMarker) ∧
      ("0123456789".data.take 4 ++ truncationMarker).length = 4 + truncationMarker.length) ∧
    ("0123456789".data.length ≤ 10 ∧
      toolResultMetadataPayload 10 { serialized := "0123456789".data } =
        MetadataPayload.passthrough { serialized := "0123456789".data }) :=
  ⟨⟨by decide,
    (toolResultMetadataPayload_truncation 4 { serialized := "0123456789".data }).1 (by decide)⟩,
   by decide,
    (toolResultMetadataPayload_truncation 10 { serialized := "0123456789".data }).2 (by decide)⟩

/-- Claim C9: a SYSTEM-role UiEvent whose text starts with one of the
hidden corrective heads is discarded by emit_ui_event: the runtime state
(in particular the UI event queue) is unchanged, so the event never
appears in any subsequent drain_ui_events output. -/
theorem emitUiEvent_discards_hidden_system_events (st : RuntimeState) (ev : UiEvent)
    (hrole : ev.role = UiRole.system)
    (htext : strStarts ev.text "Validation required:" = true ∨
      strStarts ev.text "Visual validation required now:" = true) :
    emitUiEvent ev st = st ∧
    (∀ limit, (drainUiEvents limit (emitUiEvent ev st)).1 = (drainUiEvents limit st).1) := by
  have hint : isInternalSystemReminder ev.text = true := by
    unfold isInternalSystemReminder hiddenSystemHeads
    rcases htext with h | h <;> simp [h]
  have hmain : emitUiEvent ev st = st := by
    unfold emitUiEvent
    rw [if_pos ⟨hrole, hint⟩]
  exact ⟨hmain, fun limit => by rw [hmain]⟩

/-- Witness for C9 at a concrete hidden system event on a fresh runtime. -/
theorem emitUiEvent_discards_hidden_witness :
    emitUiEvent (systemEvent "Validation required: capture a snapshot") freshRuntime =
      freshRuntime :=
  (emitUiEvent_discards_hidden_system_events freshRuntime
    (systemEvent "Validation required: capture a snapshot") (by decide) (Or.inl (by decide))).1

/-- Claim C2: submitting a request while the runtime is busy starts no
second worker and emits exactly the one "request already in progress"
system event, and after any worker body terminates (success, exception
or cancellation alike) the finally block leaves busy false. -/
theorem busy_admission_and_worker_reset (st : RuntimeState) :
    (st.busy = true →
      startAgentRequest st =
        (emitUiEvent requestInProgressEvent st, false, [requestInProgressEvent])) ∧
    (∀ body : RuntimeState → RuntimeState, (agentWorker body st).busy = false) := by
  constructor
  · intro h
    unfold startAgentRequest
    rw [if_pos h]
  · intro body
    rfl

/-- Witness for C2 on a concrete busy runtime: the submission is rejected
with the single notice and the worker reset leaves busy false. -/
theorem busy_admission_witness :
    ({ freshRuntime with busy := true } : RuntimeState).busy = true ∧
    startAgentRequest { freshRuntime with busy := true } =
      (emitUiEvent requestInProgressEvent { freshRuntime with busy := true }, false,
        [requestInProgressEvent]) ∧
    (agentWorker id { freshRuntime with busy := true }).busy = false :=
  ⟨rfl, (busy_admission_and_worker_reset { freshRuntime with busy := true }).1 rfl,
    (busy_admission_and_worker_reset { freshRuntime with busy := true }).2 id⟩

/-- The last-80 window applied twice is the last-80 window. -/
theorem lastN_lastN (n : Nat) (l : List α) : lastN n (lastN n l) = lastN n l := by
  unfold lastN
  rw [List.length_drop]
  have h : l.length - (l.length - n) - n = 0 := by omega
  rw [h, List.drop_zero]

/-- Claim C5: on a first SDK result classified resume_invalid with a
cached (truthy) resumption token and no cancellation, the worker clears
the token and re-runs the turn exactly once, passing the history-bearing
rebuilt prompt and no resume token; otherwise no retry happens; in
either case at most two SDK calls are made, so a retry that again fails
with resume_invalid is not retried further. -/
theorem agentWorker_resume_retry_once (sdkTurn : String → Option String → SdkTurnResult)
    (stateSummaryJson : String) (history : List HistMessage) (prompt : String)
    (sid : Option String) (cancel : Bool) :
    (agentTurnSdkCalls sdkTurn stateSummaryJson history prompt sid cancel).1.length ≤ 2 ∧
    ((sdkTurn (buildTurnPrompt stateSummaryJson history prompt false) sid).errorClass =
        some "resume_invalid" → pyTruthyStr sid = true → cancel = false →
      agentTurnSdkCalls sdkTurn stateSummaryJson history prompt sid cancel =
        ([(buildTurnPrompt stateSummaryJson history prompt false, sid),
          (buildTurnPrompt stateSummaryJson history prompt true, none)],
         sdkTurn (buildTurnPrompt stateSummaryJson history prompt true) none, none)) ∧
    (¬((sdkTurn (buildTurnPrompt stateSummaryJson history prompt false) sid).errorClass =
          some "resume_invalid" ∧ pyTruthyStr sid = true ∧ cancel = false) →
      agentTurnSdkCalls sdkTurn stateSummaryJson history prompt sid cancel =
        ([(buildTurnPrompt stateSummaryJson history prompt false, sid)],
         sdkTurn (buildTurnPrompt stateSummaryJson history prompt false) sid, sid)) := by
  by_cases hc : (sdkTurn (buildTurnPrompt stateSummaryJson history prompt false) sid).errorClass =
      some "resume_invalid" ∧ pyTruthyStr sid = true ∧ cancel = false
  · refine ⟨?_, fun _ _ _ => ?_, fun hn => absurd hc hn⟩ <;>
      · unfold agentTurnSdkCalls
        dsimp only
        rw [if_pos hc]
        try simp
  · refine ⟨?_, fun h1 h2 h3 => absurd ⟨h1, h2, h3⟩ hc, fun _ => ?_⟩ <;>
      · unfold agentTurnSdkCalls
        dsimp only
        rw [if_neg hc]
        try simp

/-- Witness for C5: a backend that always reports resume_invalid, with a
cached token and no cancellation, is called exactly twice — once with
the resume token and once, after the token is cleared, with the
history-bearing prompt — even though the retry fails the same way. -/
theorem agentWorker_resume_retry_witness :
    ((fun (_ : String) (_ : Option String) =>
        ({ assistantText := "", sessionId := none, error := some "resume not found",
           errorClass := some "resume_invalid", interrupted := false } : SdkTurnResult))
      (buildTurnPrompt "state" [] "hi" false) (some "sess")).errorClass = some "resume_invalid" ∧
    pyTruthyStr (some "sess") = true ∧
    agentTurnSdkCalls
        (fun _ _ => { assistantText := "", sessionId := none, error := some "resume not found",
                      errorClass := some "resume_invalid", interrupted := false })
        "state" [] "hi" (some "sess") false =
      ([(buildTurnPrompt "state" [] "hi" false, some "sess"),
        (buildTurnPrompt "state" [] "hi" true, none)],
       { assistantText := "", sessionId := none, error := some "resume not found",
         errorClass := some "resume_invalid", interrupted := false }, none) :=
  ⟨rfl, by decide,
    (agentWorker_resume_retry_once
      (fun _ _ => { assistantText := "", sessionId := none, error := some "resume not found",
                    errorClass := some "resume_invalid", interrupted := false })
      "state" [] "hi" (some "sess") false).2.1 rfl (by decide) rfl⟩

/-- Counterexample for C6 as stated: a runtime state whose cached
resumption token carries surrounding whitespace does not round-trip:
the importer strips the token, so the re-imported token differs. -/
theorem sessionState_roundtrip_counterexample :
    (importSessionState
        (some (exportSessionState { freshRuntime with sdkSessionId := some " tok " }))
        false freshRuntime).sdkSessionId ≠
      ({ freshRuntime with sdkSessionId := some " tok " } : RuntimeState).sdkSessionId := by
  decide

/-- Claim C6 (amended): for a runtime state whose input_mode is ai or cli
and whose cached resumption token is absent or a non-empty string with
no surrounding whitespace, export followed by import on a fresh runtime
reproduces the most recent at most 80 history entries, the same
input_mode, and the same token. -/
theorem sessionState_roundtrip_amended (st : RuntimeState)
    (hmode : st.inputMode = "ai" ∨ st.inputMode = "cli")
    (htok : st.sdkSessionId = none ∨
      ∃ s, st.sdkSessionId = some s ∧ pyStrip s = s ∧ s ≠ "") :
    (importSessionState (some (exportSessionState st)) false freshRuntime).history =
      lastN 80 st.history ∧
    (importSessionState (some (exportSessionState st)) false freshRuntime).inputMode =
      st.inputMode ∧
    (importSessionState (some (exportSessionState st)) false freshRuntime).sdkSessionId =
      st.sdkSessionId := by
  refine ⟨?_, ?_, ?_⟩
  · simp [importSessionState, exportSessionState, lastN_lastN]
  · rcases hmode with h | h <;>
      · simp [importSessionState, exportSessionState, h]
        decide
  · rcases htok with h | ⟨s, hs, hstrip, hne⟩
    · simp [importSessionState, exportSessionState, h]
      decide
    · simp [importSessionState, exportSessionState, hs, hstrip, hne]

/-- Witness for C6 at a concrete cli-mode state with one history entry
and a clean token. -/
theorem sessionState_roundtrip_witness :
    (exampleCliRuntime.inputMode = "ai" ∨ exampleCliRuntime.inputMode = "cli") ∧
    (exampleCliRuntime.sdkSessionId = none ∨
      ∃ s, exampleCliRuntime.sdkSessionId = some s ∧ pyStrip s = s ∧ s ≠ "") ∧
    (importSessionState (some (exportSessionState exampleCliRuntime))
        false freshRuntime).history = lastN 80 exampleCliRuntime.history ∧
    (importSessionState (some (exportSessionState exampleCliRuntime))
        false freshRuntime).inputMode = exampleCliRuntime.inputMode ∧
    (importSessionState (some (exportSessionState exampleCliRuntime))
        false freshRuntime).sdkSessionId = exampleCliRuntime.sdkSessionId :=
  ⟨Or.inr rfl, Or.inr ⟨"tok", rfl, by decide, by decide⟩,
    (sessionState_roundtrip_amended exampleCliRuntime (Or.inr rfl)
      (Or.inr ⟨"tok", rfl, by decide, by decide⟩)).1,
    (sessionState_roundtrip_amended exampleCliRuntime (Or.inr rfl)
      (Or.inr ⟨"tok", rfl, by decide, by decide⟩)).2.1,
    (sessionState_roundtrip_amended exampleCliRuntime (Or.inr rfl)
      (Or.inr ⟨"tok", rfl, by decide, by decide⟩)).2.2⟩

/-- dropWhile is the identity when the head (if any) fails the test. -/
theorem dropWhile_eq_self_of_head (p : α → Bool) (l : List α)
    (h : ∀ a, l.head? = some a → p a = false) : l.dropWhile p = l := by
  cases l with
  | nil => rfl
  | cons a t =>
      rw [List.dropWhile_cons, h a rfl]
      simp

/-- The head of a non-empty list is a member. -/
theorem mem_of_head?_eq (l : List α) (x : α) (h : l.head? = some x) : x ∈ l := by
  cases l with
  | nil => cases h
  | cons a t =>
      rw [← Option.some.inj h]
      exact List.mem_cons_self a t

/-- Python strip is the identity on a list whose first and last characters
are not whitespace. -/
theorem pyStripList_of_ends (l : List Char) (a b : Char)
    (ha : l.head? = some a) (hpa : isPySpace a = false)
    (hb : l.getLast? = some b) (hpb : isPySpace b = false) : pyStripList l = l := by
  unfold pyStripList
  have h1 : l.dropWhile isPySpace = l :=
    dropWhile_eq_self_of_head _ _ (fun x hx => by
      rw [ha] at hx
      rw [← Option.some.inj hx]
      exact hpa)
  rw [h1]
  have h2 : l.reverse.dropWhile isPySpace = l.reverse :=
    dropWhile_eq_self_of_head _ _ (fun x hx => by
      rw [List.head?_reverse, hb] at hx
      rw [← Option.some.inj hx]
      exact hpb)
  rw [h2, List.reverse_reverse]

/-- Python strip is the identity on a list without whitespace. -/
theorem pyStripList_eq_self (l : List Char) (h : ∀ c ∈ l, isPySpace c = false) :
    pyStripList l = l := by
  unfold pyStripList
  have h1 : l.dropWhile isPySpace = l :=
    dropWhile_eq_self_of_head _ _ (fun x hx => h x (mem_of_head?_eq _ _ hx))
  rw [h1]
  have h2 : l.reverse.dropWhile isPySpace = l.reverse :=
    dropWhile_eq_self_of_head _ _ (fun x hx => h x (by
      rw [List.head?_reverse] at hx
      exact List.mem_of_getLast?_eq_some hx))
  rw [h2, List.reverse_reverse]

/-- The numeric ranges behind isPdbIdChar. -/
theorem pdbChar_toNat {c : Char} (h : isPdbIdChar c = true) :
    (48 ≤ c.toNat ∧ c.toNat ≤ 57) ∨ (65 ≤ c.toNat ∧ c.toNat ≤ 90) ∨
      (97 ≤ c.toNat ∧ c.toNat ≤ 122) := by
  unfold isPdbIdChar isAsciiDigit charBetween at h
  simp at h
  tauto

/-- Digits are identifier characters. -/
theorem digit_isPdbIdChar {c : Char} (h : isAsciiDigit c = true) : isPdbIdChar c = true := by
  unfold isPdbIdChar
  rw [h]
  rfl

/-- Identifier characters are not whitespace. -/
theorem pdbChar_not_space {c : Char} (h : isPdbIdChar c = true) : isPySpace c = false := by
  have hr := pdbChar_toNat h
  unfold isPySpace
  simp only [decide_eq_false_iff_not]
  omega

/-- Identifier characters are not the dot or path separators that
_canonicalize_command excludes. -/
theorem pdbChar_ne_sep {c : Char} (h : isPdbIdChar c = true) :
    ¬('.' = c) ∧ ¬('/' = c) ∧ ¬('\\' = c) := by
  refine ⟨?_, ?_, ?_⟩ <;>
    · intro he
      rw [← he] at h
      exact absurd h (by decide)

/-- Claim C8: a command that is literally "load " followed by a
four-character structure identifier (a digit then three alphanumerics,
the anchored _RE_PDB_ID pattern) is canonicalized to the read-only
"fetch <id>" form and exactly one SYSTEM notice describing the rewrite
is emitted; and every command is either passed through stripped with no
notice, or rewritten to a fetch of a valid identifier with one notice. -/
theorem canonicalizeCommand_load_rewrite (cmd : String) (c0 c1 c2 c3 : Char)
    (hcmd : cmd.data = 'l' :: 'o' :: 'a' :: 'd' :: ' ' :: [c0, c1, c2, c3])
    (h0 : isAsciiDigit c0 = true) (h1 : isPdbIdChar c1 = true)
    (h2 : isPdbIdChar c2 = true) (h3 : isPdbIdChar c3 = true) :
    (executeCommandCanonicalization cmd =
      ("fetch " ++ (⟨[c0, c1, c2, c3]⟩ : String),
        [systemEvent ("translated load " ++ (⟨[c0, c1, c2, c3]⟩ : String) ++ " -> fetch " ++
          (⟨[c0, c1, c2, c3]⟩ : String))])) ∧
    (∀ command : String,
      (canonicalizeCommand command = (pyStrip command, none) ∧
        executeCommandCanonicalization command = (pyStrip command, [])) ∨
      (∃ arg note, rePdbIdMatch arg = true ∧
        canonicalizeCommand command = ("fetch " ++ arg, some note) ∧
        executeCommandCanonicalization command = ("fetch " ++ arg, [systemEvent note]))) := by
  have hid : ∀ c, c ∈ [c0, c1, c2, c3] → isPdbIdChar c = true := by
    intro c hc
    simp only [List.mem_cons, List.not_mem_nil, or_false] at hc
    rcases hc with rfl | rfl | rfl | rfl
    exacts [digit_isPdbIdChar h0, h1, h2, h3]
  have hstrip : pyStrip cmd = cmd := by
    have hdata : pyStripList cmd.data = cmd.data := by
      rw [hcmd]
      refine pyStripList_of_ends _ 'l' c3 rfl (by decide) ?_ (pdbChar_not_space h3)
      rw [show ('l' :: 'o' :: 'a' :: 'd' :: ' ' :: [c0, c1, c2, c3]) =
          ('l' :: 'o' :: 'a' :: 'd' :: ' ' :: [c0, c1, c2]) ++ [c3] from by simp]
      exact List.getLast?_concat _
    unfold pyStrip
    rw [hdata]
  constructor
  · have hlow : strStarts (pyLower (pyStrip cmd)) "load " = true := by
      rw [hstrip]
      unfold pyLower strStarts
      rw [hcmd]
      rfl
    have harg : pyStrip (⟨(pyStrip cmd).data.drop 5⟩ : String) = (⟨[c0, c1, c2, c3]⟩ : String) := by
      rw [hstrip]
      unfold pyStrip
      rw [hcmd]
      simp only [List.drop_succ_cons, List.drop_zero]
      rw [pyStripList_eq_self _ (fun c hc => pdbChar_not_space (hid c hc))]
    have hmatchArg : (rePdbIdMatch ⟨[c0, c1, c2, c3]⟩ &&
        !(([c0, c1, c2, c3].contains '.')) && !(([c0, c1, c2, c3].contains '/')) &&
        !(([c0, c1, c2, c3].contains '\\'))) = true := by
      have hm : rePdbIdMatch ⟨[c0, c1, c2, c3]⟩ = true := by
        unfold rePdbIdMatch
        simp [h0, h1, h2, h3]
      simp [hm, List.contains, (pdbChar_ne_sep (digit_isPdbIdChar h0)).1,
        (pdbChar_ne_sep h1).1, (pdbChar_ne_sep h2).1, (pdbChar_ne_sep h3).1,
        (pdbChar_ne_sep (digit_isPdbIdChar h0)).2.1, (pdbChar_ne_sep h1).2.1,
        (pdbChar_ne_sep h2).2.1, (pdbChar_ne_sep h3).2.1,
        (pdbChar_ne_sep (digit_isPdbIdChar h0)).2.2, (pdbChar_ne_sep h1).2.2,
        (pdbChar_ne_sep h2).2.2, (pdbChar_ne_sep h3).2.2]
    unfold executeCommandCanonicalization canonicalizeCommand
    dsimp only
    rw [if_pos hlow, harg]
    rw [if_pos hmatchArg]
  · intro command
    unfold executeCommandCanonicalization canonicalizeCommand
    dsimp only
    split_ifs with hload hmatch
    · right
      refine ⟨pyStrip ⟨(pyStrip command).data.drop 5⟩, _, ?_, rfl, rfl⟩
      simp only [Bool.and_eq_true] at hmatch
      exact hmatch.1.1.1
    · left; exact ⟨rfl, rfl⟩
    · left; exact ⟨rfl, rfl⟩

/-- Witness for C8 at the concrete command "load 1abc". -/
theorem canonicalizeCommand_load_witness :
    ("load 1abc".data = 'l' :: 'o' :: 'a' :: 'd' :: ' ' :: ['1', 'a', 'b', 'c'] ∧
      isAsciiDigit '1' = true ∧ isPdbIdChar 'a' = true) ∧
    executeCommandCanonicalization "load 1abc" =
      ("fetch " ++ (⟨['1', 'a', 'b', 'c']⟩ : String),
        [systemEvent ("translated load " ++ (⟨['1', 'a', 'b', 'c']⟩ : String) ++ " -> fetch " ++
          (⟨['1', 'a', 'b', 'c']⟩ : String))]) :=
  ⟨⟨rfl, by decide, by decide⟩,
    (canonicalizeCommand_load_rewrite "load 1abc" '1' 'a' 'b' 'c' rfl
      (by decide) (by decide) (by decide) (by decide)).1⟩

/-- Counterexample for C7 as stated: over capacity 2 with a queue of two
USER events and a third USER event arriving, compaction has no
reasoning/system entry to drop, falls back to index 0 and removes both
old USER events — so user entries can be dropped. -/
theorem uiCompaction_counterexample :
    ({ role := UiRole.user, text := "u1", ok := none, metadata := [] } : UiEvent) ∈
      ({ freshRuntime with
          uiMaxEvents := 2
          uiEvents := [{ role := UiRole.user, text := "u1", ok := none, metadata := [] },
            { role := UiRole.user, text := "u2", ok := none, metadata := [] }] } :
        RuntimeState).uiEvents ∧
    (emitUiEvent { role := UiRole.user, text := "u3", ok := none, metadata := [] }
        { freshRuntime with
          uiMaxEvents := 2
          uiEvents := [{ role := UiRole.user, text := "u1", ok := none, metadata := [] },
            { role := UiRole.user, text := "u2", ok := none, metadata := [] }] }).uiEvents =
      [{ role := UiRole.user, text := "u3", ok := none, metadata := [] },
        compactionNoticeEvent] := by
  decide

/-- One drop step removes one entry, removes exactly one droppable entry,
and leaves the non-droppable entries untouched, whenever a droppable
entry exists. -/
theorem dropOnceEvent_spec (l : List UiEvent)
    (h : 0 < (l.filter isDroppableEvent).length) :
    (dropOnceEvent l).filter (fun e => !isDroppableEvent e) =
      l.filter (fun e => !isDroppableEvent e) ∧
    ((dropOnceEvent l).filter isDroppableEvent).length =
      (l.filter isDroppableEvent).length - 1 ∧
    (dropOnceEvent l).length = l.length - 1 := by
  induction l with
  | nil => simp at h
  | cons e rest ih =>
      cases hd : isDroppableEvent e with
      | true => simp [dropOnceEvent, hd, List.filter_cons]
      | false =>
          cases ha : rest.any isDroppableEvent with
          | true =>
              have hrest : 0 < (rest.filter isDroppableEvent).length := by
                rcases List.any_eq_true.mp ha with ⟨x, hx, hpx⟩
                have hmem : x ∈ rest.filter isDroppableEvent :=
                  List.mem_filter.mpr ⟨hx, hpx⟩
                exact List.length_pos.mpr (fun hnil => by simp [hnil] at hmem)
              obtain ⟨ihf, ihc, ihl⟩ := ih hrest
              have hlen : 0 < rest.length := by
                have := List.length_filter_le isDroppableEvent rest
                omega
              refine ⟨?_, ?_, ?_⟩
              · simp [dropOnceEvent, hd, ha, List.filter_cons, ihf]
              · simp [dropOnceEvent, hd, ha, List.filter_cons, ihc]
              · simp [dropOnceEvent, hd, ha, ihl]
                omega
          | false =>
              exfalso
              have hfe : rest.filter isDroppableEvent = [] := by
                rw [List.filter_eq_nil_iff]
                intro x hx hpx
                exact absurd (List.any_eq_true.mpr ⟨x, hx, hpx⟩) (by simp [ha])
              rw [List.filter_cons, hd] at h
              simp [hfe] at h

/-- Iterating n drop steps preserves the non-droppable entries and removes
exactly n entries, n of them droppable, whenever at least n droppable
entries are present. -/
theorem iterDropEvents_spec (n : Nat) :
    ∀ l : List UiEvent, n ≤ (l.filter isDroppableEvent).length →
    (iterDropEvents n l).filter (fun e => !isDroppableEvent e) =
      l.filter (fun e => !isDroppableEvent e) ∧
    ((iterDropEvents n l).filter isDroppableEvent).length =
      (l.filter isDroppableEvent).length - n ∧
    (iterDropEvents n l).length = l.length - n := by
  induction n with
  | zero => intro l _; simp [iterDropEvents]
  | succ m ih =>
      intro l hn
      have h0 : 0 < (l.filter isDroppableEvent).length := by omega
      obtain ⟨df, dc, dl⟩ := dropOnceEvent_spec l h0
      have hm : m ≤ ((dropOnceEvent l).filter isDroppableEvent).length := by omega
      obtain ⟨itf, itc, itl⟩ := ih (dropOnceEvent l) hm
      have hlen : 0 < l.length := by
        have := List.length_filter_le isDroppableEvent l
        omega
      refine ⟨?_, ?_, ?_⟩
      · rw [show iterDropEvents (m + 1) l = iterDropEvents m (dropOnceEvent l) from rfl,
          itf, df]
      · rw [show iterDropEvents (m + 1) l = iterDropEvents m (dropOnceEvent l) from rfl,
          itc, dc]
        omega
      · rw [show iterDropEvents (m + 1) l = iterDropEvents m (dropOnceEvent l) from rfl,
          itl, dl]
        omega

/-- Claim C7 (amended): when the queue exceeds a positive capacity and
holds at least as many droppable reasoning/system entries as must be
removed (the overflow, plus one slot for the notice when it is still
due), compaction removes only droppable reasoning/system entries — the
subsequence of events of any other role is untouched — and appends
exactly one compaction notice when none was sent, none otherwise, with
the notice-sent flag left set; a full drain resets that flag. -/
theorem uiCompaction_amended (cap : Nat) (flag : Bool) (l : List UiEvent)
    (hcap : cap ≠ 0) (hlen : cap < l.length)
    (hdrop : (l.length - cap) + (if flag then 0 else 1) ≤
      (l.filter isDroppableEvent).length) :
    (compactUiEventsLocked cap flag l).1.filter (fun e => !isDroppableEvent e) =
      l.filter (fun e => !isDroppableEvent e) ++
        (if flag then [] else [compactionNoticeEvent]) ∧
    (compactUiEventsLocked cap flag l).2 = true ∧
    (∀ st : RuntimeState, (drainUiEvents none st).2.uiCompactionNoticeSent = false) := by
  have hn : l.length - cap ≤ (l.filter isDroppableEvent).length := by
    rcases flag <;> simp at hdrop <;> omega
  obtain ⟨itf, itc, itl⟩ := iterDropEvents_spec (l.length - cap) l hn
  have htrimlen : (iterDropEvents (l.length - cap) l).length = cap := by omega
  refine ⟨?_, ?_, fun st => rfl⟩
  · unfold compactUiEventsLocked
    rw [if_neg hcap, if_neg (by omega)]
    dsimp only
    cases flag with
    | true => simpa using itf
    | false =>
        rw [if_neg (by simp)]
        rw [if_pos (by omega)]
        have hc1 : 0 < ((iterDropEvents (l.length - cap) l).filter isDroppableEvent).length := by
          simp at hdrop
          omega
        obtain ⟨df, _, _⟩ := dropOnceEvent_spec _ hc1
        have hnot : isDroppableEvent compactionNoticeEvent = false := by decide
        rw [List.filter_append, df, itf]
        simp [hnot]
  · unfold compactUiEventsLocked
    rw [if_neg hcap, if_neg (by omega)]
    dsimp only
    cases flag with
    | true => rfl
    | false => rw [if_neg (by simp)]

/-- Witness for C7 at capacity 1 over a queue of two droppable system
events. -/
theorem uiCompaction_witness :
    ((1 : Nat) ≠ 0 ∧
      1 < ([systemEvent "a", systemEvent "b"] : List UiEvent).length ∧
      (([systemEvent "a", systemEvent "b"] : List UiEvent).length - 1) + 1 ≤
        (([systemEvent "a", systemEvent "b"] : List UiEvent).filter
          isDroppableEvent).length) ∧
    (compactUiEventsLocked 1 false [systemEvent "a", systemEvent "b"]).1.filter
        (fun e => !isDroppableEvent e) =
      ([systemEvent "a", systemEvent "b"] : List UiEvent).filter
          (fun e => !isDroppableEvent e) ++ [compactionNoticeEvent] ∧
    (compactUiEventsLocked 1 false [systemEvent "a", systemEvent "b"]).2 = true :=
  ⟨⟨by decide, by decide, by decide⟩,
    ((uiCompaction_amended 1 false [systemEvent "a", systemEvent "b"]
        (by decide) (by decide) (by decide)).1).trans (by decide),
    (uiCompaction_amended 1 false [systemEvent "a", systemEvent "b"]
        (by decide) (by decide) (by decide)).2.1⟩

/-- Each loop iteration of append_events increments the manifest count by
one and buffers exactly one journal line, whatever the event. -/
theorem appendOneEvent_count (now stamp : String)
    (acc : ChatManifest × List EventRecord × Bool) (event : RawChatEvent) :
    (appendOneEvent now stamp acc event).1.messageCount = acc.1.messageCount + 1 ∧
    (appendOneEvent now stamp acc event).2.1.length = acc.2.1.length + 1 := by
  unfold appendOneEvent
  dsimp only
  split_ifs <;> simp

/-- Folding the append_events loop over a batch adds the batch length to
the manifest count and to the pending line buffer. -/
theorem appendFold_count (now stamp : String) (events : List RawChatEvent) :
    ∀ acc : ChatManifest × List EventRecord × Bool,
      (events.foldl (appendOneEvent now stamp) acc).1.messageCount =
        acc.1.messageCount + events.length ∧
      (events.foldl (appendOneEvent now stamp) acc).2.1.length =
        acc.2.1.length + events.length := by
  induction events with
  | nil => intro acc; simp
  | cons e es ih =>
      intro acc
      have hstep := appendOneEvent_count now stamp acc e
      have hrec := ih (appendOneEvent now stamp acc e)
      rw [List.foldl_cons]
      constructor
      · rw [hrec.1, hstep.1, List.length_cons]
        omega
      · rw [hrec.2, hstep.2, List.length_cons]
        omega

/-- One append_events call on the current chat adds the batch length to
the manifest count and to the pending journal buffer, touching neither
the chat pointer nor the flushed journal. -/
theorem appendEvents_spec (now stamp cid : String) (events : List RawChatEvent)
    (st : AiChatStore) (m : ChatManifest)
    (hm : st.manifest = some m) (hid : st.currentChatId = some cid) :
    ∃ m', (appendEvents now stamp cid events st).2.manifest = some m' ∧
      m'.messageCount = m.messageCount + events.length ∧
      (appendEvents now stamp cid events st).2.currentChatId = st.currentChatId ∧
      (appendEvents now stamp cid events st).2.currentChatDir = st.currentChatDir ∧
      (appendEvents now stamp cid events st).2.eventsFileLines = st.eventsFileLines ∧
      (appendEvents now stamp cid events st).2.pendingEventLines.length =
        st.pendingEventLines.length + events.length := by
  have hfold := appendFold_count now stamp events
    (m, st.pendingEventLines, decide (m.messageCount = 0))
  refine ⟨(events.foldl (appendOneEvent now stamp)
    (m, st.pendingEventLines, decide (m.messageCount = 0))).1, ?_⟩
  unfold appendEvents
  simp only [hm]
  rw [if_pos hid]
  split_ifs with h0
  · exact ⟨rfl, hfold.1, rfl, rfl, rfl, hfold.2⟩
  · exact ⟨rfl, hfold.1, rfl, rfl, rfl, hfold.2⟩

/-- A sequence of append_events batches on the current chat adds the total
record count to the manifest count and to the pending buffer, preserving
chat pointer, directory and flushed journal. -/
theorem appendBatches_spec (now stamp cid : String) (batches : List (List RawChatEvent)) :
    ∀ (st : AiChatStore) (m : ChatManifest),
      st.manifest = some m → st.currentChatId = some cid →
      ∃ m', (appendBatches now stamp cid batches st).manifest = some m' ∧
        m'.messageCount = m.messageCount + (batches.map List.length).sum ∧
        (appendBatches now stamp cid batches st).currentChatId = st.currentChatId ∧
        (appendBatches now stamp cid batches st).currentChatDir = st.currentChatDir ∧
        (appendBatches now stamp cid batches st).eventsFileLines = st.eventsFileLines ∧
        (appendBatches now stamp cid batches st).pendingEventLines.length =
          st.pendingEventLines.length + (batches.map List.length).sum := by
  induction batches with
  | nil =>
      intro st m hm _
      exact ⟨m, hm, by simp, rfl, rfl, rfl, by simp [appendBatches]⟩
  | cons b bs ih =>
      intro st m hm hid
      obtain ⟨m1, hm1, hc1, hid1, hdir1, hfile1, hpend1⟩ :=
        appendEvents_spec now stamp cid b st m hm hid
      obtain ⟨m', hm', hc', hid', hdir', hfile', hpend'⟩ :=
        ih (appendEvents now stamp cid b st).2 m1 hm1 (by rw [hid1]; exact hid)
      have hstep : appendBatches now stamp cid (b :: bs) st =
          appendBatches now stamp cid bs (appendEvents now stamp cid b st).2 := rfl
      refine ⟨m', by rw [hstep]; exact hm', ?_, ?_, ?_, ?_, ?_⟩
      · rw [hc', hc1]
        simp
        omega
      · rw [hstep, hid', hid1]
      · rw [hstep, hdir', hdir1]
      · rw [hstep, hfile', hfile1]
      · rw [hstep, hpend', hpend1]
        simp
        omega

/-- flush_now with a loaded chat writes the pending journal lines through
to events.jsonl and empties the buffer. -/
theorem flushNow_journal (st : AiChatStore) (m : ChatManifest) (d : String)
    (hm : st.manifest = some m) (hd : st.currentChatDir = some d) :
    (flushNow st).eventsFileLines = st.eventsFileLines ++ st.pendingEventLines ∧
    (flushNow st).pendingEventLines = [] := by
  unfold flushNow
  simp only [hm, hd]
  dsimp only
  constructor <;> (split_ifs <;> rfl)

/-- Claim C1: for a chat store whose loaded chat satisfies the journal
accounting invariant (flushed plus pending lines equal message_count),
any sequence of append_events batches on the current chat raises
message_count by exactly the total number of delivered records; a single
append_events call never lowers message_count on any store; and after
flush_now the chat's events.jsonl holds exactly message_count lines, one
parseable JSON line per appended record, with the pending buffer empty. -/
theorem chatStore_messageCount_journal (now stamp cid dir : String) (m : ChatManifest)
    (batches : List (List RawChatEvent)) (st : AiChatStore)
    (hid : st.currentChatId = some cid) (hdir : st.currentChatDir = some dir)
    (hm : st.manifest = some m)
    (hinv : st.eventsFileLines.length + st.pendingEventLines.length = m.messageCount) :
    manifestMessageCount (appendBatches now stamp cid batches st) =
      m.messageCount + (batches.map List.length).sum ∧
    (∀ (s : AiChatStore) (now' stamp' cid' : String) (b : List RawChatEvent),
      manifestMessageCount s ≤ manifestMessageCount ((appendEvents now' stamp' cid' b s).2)) ∧
    (flushNow (appendBatches now stamp cid batches st)).eventsFileLines.length =
      m.messageCount + (batches.map List.length).sum ∧
    (flushNow (appendBatches now stamp cid batches st)).pendingEventLines = [] := by
  obtain ⟨m', hm', hcount, hcid, hdir', hfile, hpend⟩ :=
    appendBatches_spec now stamp cid batches st m hm hid
  have hfl := flushNow_journal (appendBatches now stamp cid batches st) m' dir hm'
    (by rw [hdir']; exact hdir)
  refine ⟨?_, ?_, ?_, hfl.2⟩
  · simp [manifestMessageCount, hm', hcount]
  · intro s now' stamp' cid' b
    cases hsm : s.manifest with
    | none =>
        unfold appendEvents
        simp [hsm]
    | some mm =>
        by_cases hsc : s.currentChatId = some cid'
        · obtain ⟨mm', hmm', hc, _⟩ := appendEvents_spec now' stamp' cid' b s mm hsm hsc
          simp [manifestMessageCount, hsm, hmm', hc]
        · unfold appendEvents
          simp only [hsm]
          rw [if_neg hsc]
  · rw [hfl.1, List.length_append, hfile, hpend]
    omega

/-- Witness for C1 on a fresh example chat receiving one batch of one
user event. -/
theorem chatStore_messageCount_witness :
    (exampleStore.currentChatId = some "c" ∧ exampleStore.currentChatDir = some "dir" ∧
      exampleStore.manifest = some exampleManifest ∧
      exampleStore.eventsFileLines.length + exampleStore.pendingEventLines.length =
        exampleManifest.messageCount) ∧
    manifestMessageCount (appendBatches "t1" "s1" "c" exampleBatches exampleStore) =
      exampleManifest.messageCount + (exampleBatches.map List.length).sum ∧
    (flushNow (appendBatches "t1" "s1" "c" exampleBatches exampleStore)).eventsFileLines.length =
      exampleManifest.messageCount + (exampleBatches.map List.length).sum ∧
    (flushNow (appendBatches "t1" "s1" "c" exampleBatches exampleStore)).pendingEventLines = [] :=
  ⟨⟨rfl, rfl, rfl, rfl⟩,
    (chatStore_messageCount_journal "t1" "s1" "c" "dir" exampleManifest exampleBatches
      exampleStore rfl rfl rfl rfl).1,
    (chatStore_messageCount_journal "t1" "s1" "c" "dir" exampleManifest exampleBatches
      exampleStore rfl rfl rfl rfl).2.2.1,
    (chatStore_messageCount_journal "t1" "s1" "c" "dir" exampleManifest exampleBatches
      exampleStore rfl rfl rfl rfl).2.2.2⟩

/-- pushMax written as a single drop of the extended list. -/
theorem pushMax_def (m : Nat) (xs : List α) (x : α) :
    pushMax m xs x = (xs ++ [x]).drop (xs.length + 1 - m) := by
  simp [pushMax]

/-- The bounded-deque length after one push. -/
theorem pushMax_length (m : Nat) (xs : List α) (x : α) :
    (pushMax m xs x).length = min (xs.length + 1) m := by
  simp [pushMax]
  omega

/-- Folding bounded-deque pushes keeps the suffix of the stream that fits
the bound. -/
theorem pushAll_eq (m : Nat) (xs : List α) :
    ∀ init : List α, init.length ≤ m →
    pushAll m init xs = (init ++ xs).drop (init.length + xs.length - m) := by
  induction xs with
  | nil =>
      intro init h
      simp [pushAll, Nat.sub_eq_zero_of_le h]
  | cons x xs ih =>
      intro init h
      have hle : (pushMax m init x).length ≤ m := by
        rw [pushMax_length]
        omega
      have hrec := ih (pushMax m init x) hle
      rw [show pushAll m init (x :: xs) = pushAll m (pushMax m init x) xs from rfl, hrec]
      rw [pushMax_length, pushMax_def]
      rw [← List.drop_append_of_le_length
        (by simp only [List.length_append, List.length_cons, List.length_nil]; omega),
        List.drop_drop]
      rw [List.append_assoc]
      simp only [List.singleton_append, List.length_cons]
      congr 1
      omega

/-- altList has the requested length. -/
theorem length_altList (n : Nat) : ∀ a b : α, (altList a b n).length = n := by
  induction n with
  | zero => intro a b; rfl
  | succ m ih => intro a b; simp [altList, ih]

/-- Unfolding altList two steps. -/
theorem altList_two_step (a b : α) (n : Nat) :
    altList a b (n + 2) = a :: b :: altList a b n := rfl

/-- The last element alternates when the length grows by one. -/
theorem altLast_succ (a b : α) (n : Nat) : altLast b a n = altLast a b (n + 1) := by
  unfold altLast
  by_cases h : n % 2 = 0
  · have h2 : ¬((n + 1) % 2 = 0) := by omega
    simp [h, h2]
  · have h2 : (n + 1) % 2 = 0 := by omega
    simp [h, h2]

/-- altList of length n + 1 is altList of length n with its last element
appended. -/
theorem altList_concat (n : Nat) : ∀ a b : α,
    altList a b (n + 1) = altList a b n ++ [altLast a b n] := by
  induction n with
  | zero => intro a b; simp [altList, altLast]
  | succ m ih =>
      intro a b
      rw [show altList a b (m + 1 + 1) = a :: altList b a (m + 1) from rfl, ih b a]
      rw [show altList a b (m + 1) = a :: altList b a m from rfl]
      rw [altLast_succ]
      simp

/-- Members of an alternating list are one of its two generators. -/
theorem mem_altList (n : Nat) : ∀ (a b x : α), x ∈ altList a b n → x = a ∨ x = b := by
  induction n with
  | zero => intro a b x hx; cases hx
  | succ m ih =>
      intro a b x hx
      rw [show altList a b (m + 1) = a :: altList b a m from rfl] at hx
      rcases List.mem_cons.mp hx with h | hx'
      · exact Or.inl h
      · rcases ih b a x hx' with h | h
        · exact Or.inr h
        · exact Or.inl h

/-- Mapping over an alternating list alternates the images. -/
theorem map_altList (f : α → β) (n : Nat) : ∀ a b : α,
    (altList a b n).map f = altList (f a) (f b) n := by
  induction n with
  | zero => intro a b; rfl
  | succ m ih =>
      intro a b
      rw [show altList a b (m + 1) = a :: altList b a m from rfl, List.map_cons, ih b a]
      rfl

/-- An alternating list of two distinct values of length at least two is
not all equal to its first element. -/
theorem all_altList_false [DecidableEq α] (a b : α) (h : ¬(b = a)) (n : Nat) :
    (altList a b (n + 2)).all (fun x => decide (x = a)) = false := by
  rw [altList_two_step]
  simp [h]

/-- Folding the distinct-value collector over values already collected is
the identity. -/
theorem distinctFold_const (l : List String) : ∀ acc : List String,
    (∀ x ∈ l, x ∈ acc) →
    l.foldl (fun acc x => if x ∈ acc then acc else acc ++ [x]) acc = acc := by
  induction l with
  | nil => intro acc _; rfl
  | cons y ys ih =>
      intro acc h
      rw [List.foldl_cons, if_pos (h y (by simp))]
      exact ih acc (fun x hx => h x (by simp [hx]))

/-- An alternating list of two distinct values has exactly those two
distinct values. -/
theorem distinctVals_altList (a b : String) (h : ¬(b = a)) (n : Nat) :
    distinctVals (altList a b (n + 2)) = [a, b] := by
  unfold distinctVals
  rw [altList_two_step, List.foldl_cons, List.foldl_cons]
  rw [if_neg (List.not_mem_nil a)]
  simp only [List.nil_append]
  rw [if_neg (by simp only [List.mem_singleton]; exact h)]
  rw [distinctFold_const _ _ (fun x hx => by
    rcases mem_altList n a b x hx with h' | h' <;> simp [h'])]
  rfl

/-- Every entry of an alternating list equals the entry two before it. -/
theorem altCheck2_altList : ∀ (n : Nat) (a b : String), altCheck2 (altList a b n) = true
  | 0, _, _ => rfl
  | 1, _, _ => rfl
  | 2, _, _ => rfl
  | (m + 3), a, b => by
      have ih : altCheck2 (b :: a :: altList b a m) = true := altCheck2_altList (m + 2) b a
      show altCheck2 (a :: b :: a :: altList b a m) = true
      simp [altCheck2, ih]

/-- No two adjacent entries of an alternating list of distinct values are
equal. -/
theorem adjAllDistinct_altList : ∀ (n : Nat) (a b : String), ¬(a = b) →
    adjAllDistinct (altList a b n) = true
  | 0, _, _, _ => rfl
  | 1, _, _, _ => rfl
  | (m + 2), a, b, h => by
      have ih : adjAllDistinct (b :: altList a b m) = true :=
        adjAllDistinct_altList (m + 1) b a (fun he => h he.symm)
      show adjAllDistinct (a :: b :: altList a b m) = true
      simp [adjAllDistinct, h, ih]

/-- An alternating list of two distinct values of length at least three is
an oscillation. -/
theorem isOscillation_altList (a b : String) (h : ¬(a = b)) (n : Nat) :
    isOscillation (altList a b (n + 3)) = true := by
  unfold isOscillation
  rw [if_neg (by rw [length_altList]; omega)]
  rw [if_neg (by
    rw [show (n + 3) = (n + 1) + 2 from rfl,
      distinctVals_altList a b (fun he => h he.symm)]
    simp)]
  rw [altCheck2_altList (n + 3) a b,
    adjAllDistinct_altList (n + 3) a b h]
  rfl

/-- The detector state returned by add_call for a non-exempt tool. -/
theorem addCall_fst (d : DoomLoopDetector) (toolName : String) (arguments : ToolArgs)
    (v : Bool) (h : ¬toolName = "capture_viewer_snapshot") :
    (addCall d toolName arguments v).1 =
      { d with recent := pushMax d.threshold d.recent (toolName, arguments, v)
               recentFamilies := pushMax (max 4 d.threshold) d.recentFamilies
                 (commandFamily toolName arguments) } := by
  unfold addCall
  rw [if_neg h]

/-- The report returned by add_call for a non-exempt tool. -/
theorem addCall_snd (d : DoomLoopDetector) (toolName : String) (arguments : ToolArgs)
    (v : Bool) (h : ¬toolName = "capture_viewer_snapshot") :
    (addCall d toolName arguments v).2 =
      addCallReport d.threshold toolName
        (pushMax d.threshold d.recent (toolName, arguments, v))
        (pushMax (max 4 d.threshold) d.recentFamilies
          (commandFamily toolName arguments)) := by
  unfold addCall
  rw [if_neg h]

/-- After feeding a stream of non-exempt calls, the detector windows hold
the bounded suffixes of the signature and family streams. -/
theorem feedCalls_fst (L : List (String × ToolArgs × Bool)) :
    ∀ d : DoomLoopDetector, (∀ c ∈ L, ¬c.1 = "capture_viewer_snapshot") →
    (feedCalls d L).1 =
      { d with recent := pushAll d.threshold d.recent
                 (L.map (fun c => (c.1, c.2.1, c.2.2)))
               recentFamilies := pushAll (max 4 d.threshold) d.recentFamilies
                 (L.map (fun c => commandFamily c.1 c.2.1)) } := by
  induction L with
  | nil => intro d _; rfl
  | cons c cs ih =>
      intro d h
      have hc : ¬c.1 = "capture_viewer_snapshot" := h c (by simp)
      have h1 : (feedCalls d (c :: cs)).1 =
          (feedCalls (addCall d c.1 c.2.1 c.2.2).1 cs).1 := rfl
      rw [h1, ih _ (fun x hx => h x (by simp [hx])), addCall_fst _ _ _ _ hc]
      rfl

/-- feedCalls over a stream with one more call at the end. -/
theorem feedCalls_concat (L : List (String × ToolArgs × Bool)) :
    ∀ (d : DoomLoopDetector) (c : String × ToolArgs × Bool),
    feedCalls d (L ++ [c]) =
      ((addCall (feedCalls d L).1 c.1 c.2.1 c.2.2).1,
       (feedCalls d L).2 ++ [(addCall (feedCalls d L).1 c.1 c.2.1 c.2.2).2]) := by
  induction L with
  | nil => intro d c; rfl
  | cons x xs ih =>
      intro d c
      rw [show (x :: xs) ++ [c] = x :: (xs ++ [c]) from rfl]
      rw [show feedCalls d (x :: (xs ++ [c])) =
          ((feedCalls (addCall d x.1 x.2.1 x.2.2).1 (xs ++ [c])).1,
           (addCall d x.1 x.2.1 x.2.2).2 ::
             (feedCalls (addCall d x.1 x.2.1 x.2.2).1 (xs ++ [c])).2) from rfl]
      rw [ih]
      rfl

/-- A window of identical signatures of full threshold length fires the
exact-match report. -/
theorem addCallReport_exact (t : Nat) (h2 : 2 ≤ t) (toolName : String) (s : Sig)
    (families : List String) :
    addCallReport t toolName (List.replicate t s) families =
      some { toolName := toolName, callCount := t, loopType := "exact_match"
             commandFamilyValue := none, commandFamilySequence := none } := by
  obtain ⟨k, rfl⟩ : ∃ k, t = k + 1 := ⟨t - 1, by omega⟩
  unfold addCallReport
  rw [if_neg (by simp)]
  rw [List.replicate_succ]
  dsimp only
  rw [if_pos (by
    rw [List.all_eq_true]
    intro x hx
    rcases List.mem_cons.mp hx with h | hx'
    · simp [h]
    · simp [List.eq_of_mem_replicate hx'])]

/-- A full alternating signature window over two distinct call signatures,
together with a family window alternating over two distinct families,
fires the oscillation report (threshold at least three). -/
theorem addCallReport_oscillation (k : Nat) (toolName : String)
    (x y : Sig) (hxy : ¬(y = x)) (u v : String) (huv : ¬(v = u))
    (families : List String) (hlen : k + 3 ≤ families.length)
    (hwin : families.drop (families.length - (k + 3)) = altList u v (k + 3)) :
    addCallReport (k + 3) toolName (altList x y (k + 3)) families =
      some { toolName := toolName, callCount := k + 3
             loopType := "command_family_oscillation", commandFamilyValue := none
             commandFamilySequence := some (altList u v (k + 3)) } := by
  unfold addCallReport
  rw [if_neg (by rw [length_altList]; omega)]
  rw [show altList x y (k + 3) = x :: altList y x (k + 2) from rfl]
  dsimp only
  rw [show ((x :: altList y x (k + 2)).all fun item => decide (item = x)) = false from
    all_altList_false x y hxy (k + 1)]
  rw [if_neg (by simp)]
  rw [if_pos hlen]
  rw [hwin]
  rw [show altList u v (k + 3) = u :: altList v u (k + 2) from rfl]
  dsimp only
  rw [show ((u :: altList v u (k + 2)).all fun f => decide (f = u)) = false from
    all_altList_false u v huv (k + 1)]
  rw [if_neg (by simp)]
  rw [show isOscillation (u :: altList v u (k + 2)) = true from
    isOscillation_altList u v (fun he => huv he.symm) k]
  rw [if_pos rfl]

/-- Feeding fewer identical calls than the threshold leaves both windows
as plain replicas and returns None on every call. -/
theorem feedCalls_replicate_lt (cE : String × ToolArgs × Bool)
    (hE : ¬cE.1 = "capture_viewer_snapshot") (t : Nat) :
    ∀ j, j < t →
    feedCalls ⟨t, [], [], []⟩ (List.replicate j cE) =
      (⟨t, List.replicate j cE, List.replicate j (commandFamily cE.1 cE.2.1), []⟩,
        List.replicate j (none : Option LoopReport)) := by
  obtain ⟨toolE, argsE, flagE⟩ := cE
  intro j
  induction j with
  | zero => intro _; rfl
  | succ m ih =>
      intro hj
      have hm := ih (by omega)
      rw [List.replicate_succ' m (toolE, argsE, flagE)]
      rw [feedCalls_concat, hm]
      dsimp only
      rw [addCall_fst _ _ _ _ hE, addCall_snd _ _ _ _ hE]
      dsimp only
      have hrec : pushMax t (List.replicate m (toolE, argsE, flagE)) (toolE, argsE, flagE) =
          List.replicate (m + 1) (toolE, argsE, flagE) := by
        rw [pushMax_def, ← List.replicate_succ', List.length_replicate]
        rw [show m + 1 - t = 0 from by omega, List.drop_zero]
      have hfam : pushMax (max 4 t) (List.replicate m (commandFamily toolE argsE))
          (commandFamily toolE argsE) =
          List.replicate (m + 1) (commandFamily toolE argsE) := by
        rw [pushMax_def, ← List.replicate_succ', List.length_replicate]
        rw [show m + 1 - max 4 t = 0 from by
          have := Nat.le_max_right 4 t
          omega, List.drop_zero]
      rw [hrec, hfam]
      have hrep : addCallReport t toolE (List.replicate (m + 1) (toolE, argsE, flagE))
          (List.replicate (m + 1) (commandFamily toolE argsE)) = none := by
        unfold addCallReport
        rw [if_pos (by simp; omega)]
      rw [hrep]
      rw [← List.replicate_succ' m (none : Option LoopReport),
        ← List.replicate_succ' m (toolE, argsE, flagE)]

/-- Counterexample for C3 as stated: at threshold 2, the alternating
zoom/turn/zoom sequence of length threshold + 1 with two distinct
command families and no immediate repeats returns None on every call —
the oscillation check needs a window of at least three, which a
threshold-2 family window never reaches. -/
theorem doomLoopDetector_counterexample :
    (feedCalls (initDetector 2)
      [("run_pymol_command", ⟨some "zoom", []⟩, false),
       ("run_pymol_command", ⟨some "turn", []⟩, false),
       ("run_pymol_command", ⟨some "zoom", []⟩, false)]).2 = [none, none, none] := by
  decide

/-- Claim C3 (amended): for a detector built with threshold t at least 2
and tools other than the exempt capture_viewer_snapshot, feeding the
identical (tool, arguments) call t times returns None on calls 1..t-1
and an exact_match report on call t; and for t at least 3, feeding an
alternating sequence of two distinct command families of length t + 1
(no two adjacent entries equal) ends with a command_family_oscillation
report. -/
theorem doomLoopDetector_amended (t : Nat) (h2 : 2 ≤ t)
    (toolE : String) (argsE : ToolArgs) (flagE : Bool)
    (hE : ¬toolE = "capture_viewer_snapshot")
    (toolA toolB : String) (argsA argsB : ToolArgs) (flagA flagB : Bool)
    (hA : ¬toolA = "capture_viewer_snapshot") (hB : ¬toolB = "capture_viewer_snapshot")
    (hfam : ¬commandFamily toolA argsA = commandFamily toolB argsB) :
    (∃ r : LoopReport,
      (feedCalls (initDetector t) (List.replicate t (toolE, argsE, flagE))).2 =
        List.replicate (t - 1) none ++ [some r] ∧ r.loopType = "exact_match") ∧
    (3 ≤ t → ∃ r : LoopReport,
      (feedCalls (initDetector t)
        (altList (toolA, argsA, flagA) (toolB, argsB, flagB) (t + 1))).2.getLast? =
          some (some r) ∧ r.loopType = "command_family_oscillation") := by
  have hinit : initDetector t = ⟨t, [], [], []⟩ := by
    simp [initDetector, Nat.max_eq_right h2]
  constructor
  · -- exact-match half
    rw [hinit]
    have hsplit : List.replicate t (toolE, argsE, flagE) =
        List.replicate (t - 1) (toolE, argsE, flagE) ++ [(toolE, argsE, flagE)] := by
      rw [← List.replicate_succ']
      congr 1
      omega
    rw [hsplit, feedCalls_concat,
      feedCalls_replicate_lt (toolE, argsE, flagE) hE t (t - 1) (by omega)]
    dsimp only
    rw [addCall_snd _ _ _ _ hE]
    dsimp only
    have hrec : pushMax t (List.replicate (t - 1) (toolE, argsE, flagE))
        (toolE, argsE, flagE) = List.replicate t (toolE, argsE, flagE) := by
      rw [pushMax_def, ← List.replicate_succ', List.length_replicate]
      rw [show t - 1 + 1 = t from by omega]
      rw [show t - t = 0 from by omega, List.drop_zero]
    rw [hrec, addCallReport_exact t h2 toolE (toolE, argsE, flagE) _]
    exact ⟨_, rfl, rfl⟩
  · -- oscillation half
    intro h3
    obtain ⟨k, rfl⟩ : ∃ k, t = k + 3 := ⟨t - 3, by omega⟩
    have hsig : ¬((toolA, argsA, flagA) : String × ToolArgs × Bool) =
        (toolB, argsB, flagB) := by
      intro he
      simp only [Prod.mk.injEq] at he
      exact hfam (by rw [he.1, he.2.1])
    rw [hinit]
    rw [altList_concat (k + 3)]
    rw [feedCalls_concat]
    have hmem : ∀ c ∈ altList ((toolA, argsA, flagA) : String × ToolArgs × Bool)
        (toolB, argsB, flagB) (k + 3), ¬c.1 = "capture_viewer_snapshot" := by
      intro c hc
      rcases mem_altList _ _ _ _ hc with h | h <;> rw [h] <;> assumption
    rw [feedCalls_fst _ _ hmem]
    have hsigfun : (fun (c : String × ToolArgs × Bool) => (c.1, c.2.1, c.2.2)) =
        (id : String × ToolArgs × Bool → String × ToolArgs × Bool) := rfl
    rw [hsigfun, List.map_id]
    rw [map_altList (fun c => commandFamily c.1 c.2.1) (k + 3)
      (toolA, argsA, flagA) (toolB, argsB, flagB)]
    rw [pushAll_eq _ _ _ (by simp)]
    rw [pushAll_eq _ _ _ (by simp)]
    dsimp only
    simp only [List.nil_append, List.length_nil, length_altList]
    rw [show (0 : Nat) + (k + 3) - (k + 3) = 0 from by omega, List.drop_zero]
    rw [show (0 : Nat) + (k + 3) - max 4 (k + 3) = 0 from by
      have := Nat.le_max_right 4 (k + 3)
      omega, List.drop_zero]
    set e := altLast ((toolA, argsA, flagA) : String × ToolArgs × Bool)
      (toolB, argsB, flagB) (k + 3) with hedef
    have heval : e = (toolA, argsA, flagA) ∨ e = (toolB, argsB, flagB) := by
      rw [hedef]
      unfold altLast
      split_ifs
      · exact Or.inl rfl
      · exact Or.inr rfl
    have he1 : ¬e.1 = "capture_viewer_snapshot" := by
      rcases heval with h | h <;> rw [h] <;> assumption
    rw [addCall_snd _ _ _ _ he1]
    dsimp only
    have hM1 : k + 3 ≤ max 4 (k + 3) := Nat.le_max_right 4 (k + 3)
    have hM2 : max 4 (k + 3) ≤ k + 4 := by
      rcases Nat.le_total 4 (k + 3) with h | h
      · rw [Nat.max_eq_right h]
        omega
      · rw [Nat.max_eq_left h]
        omega
    have hetuple : ((e.1, e.2.1, e.2.2) : String × ToolArgs × Bool) = e := rfl
    have hfamE : commandFamily e.1 e.2.1 =
        altLast (commandFamily toolA argsA) (commandFamily toolB argsB) (k + 3) := by
      rw [hedef]
      unfold altLast
      split_ifs <;> rfl
    have hrec2 : pushMax (k + 3)
        (altList ((toolA, argsA, flagA) : String × ToolArgs × Bool)
          (toolB, argsB, flagB) (k + 3)) (e.1, e.2.1, e.2.2) =
        altList ((toolB, argsB, flagB) : String × ToolArgs × Bool)
          (toolA, argsA, flagA) (k + 3) := by
      rw [hetuple, pushMax_def, hedef, ← altList_concat (k + 3), length_altList]
      rw [show k + 3 + 1 - (k + 3) = 1 from by omega]
      rfl
    have hfam2 : pushMax (max 4 (k + 3))
        (altList (commandFamily toolA argsA) (commandFamily toolB argsB) (k + 3))
        (commandFamily e.1 e.2.1) =
        (altList (commandFamily toolA argsA) (commandFamily toolB argsB) (k + 4)).drop
          (k + 4 - max 4 (k + 3)) := by
      rw [hfamE, pushMax_def, ← altList_concat (k + 3), length_altList]
    rw [hrec2, hfam2]
    have hflen : ((altList (commandFamily toolA argsA) (commandFamily toolB argsB)
        (k + 4)).drop (k + 4 - max 4 (k + 3))).length = max 4 (k + 3) := by
      rw [List.length_drop, length_altList]
      omega
    have hwin : ((altList (commandFamily toolA argsA) (commandFamily toolB argsB)
        (k + 4)).drop (k + 4 - max 4 (k + 3))).drop
          (((altList (commandFamily toolA argsA) (commandFamily toolB argsB)
            (k + 4)).drop (k + 4 - max 4 (k + 3))).length - (k + 3)) =
        altList (commandFamily toolB argsB) (commandFamily toolA argsA) (k + 3) := by
      rw [hflen, List.drop_drop]
      rw [show k + 4 - max 4 (k + 3) + (max 4 (k + 3) - (k + 3)) = 1 from by omega]
      rfl
    rw [addCallReport_oscillation k e.1 (toolB, argsB, flagB) (toolA, argsA, flagA)
      hsig (commandFamily toolB argsB) (commandFamily toolA argsA) hfam _
      (by rw [hflen]; omega) hwin]
    rw [List.getLast?_concat]
    exact ⟨_, rfl, rfl⟩

/-- Witness for C3 at threshold 3 with concrete zoom/turn commands: three
identical zoom calls fire exact_match on the third, and the alternating
zoom/turn sequence of length four ends in command_family_oscillation. -/
theorem doomLoopDetector_witness :
    ((2 : Nat) ≤ 3 ∧ ¬("run_pymol_command" : String) = "capture_viewer_snapshot" ∧
      ¬commandFamily "run_pymol_command" ⟨some "zoom", []⟩ =
        commandFamily "run_pymol_command" ⟨some "turn", []⟩) ∧
    (∃ r : LoopReport,
      (feedCalls (initDetector 3)
        (List.replicate 3 ("run_pymol_command", (⟨some "zoom", []⟩ : ToolArgs), false))).2 =
          List.replicate 2 none ++ [some r] ∧ r.loopType = "exact_match") ∧
    (∃ r : LoopReport,
      (feedCalls (initDetector 3)
        (altList ("run_pymol_command", (⟨some "zoom", []⟩ : ToolArgs), false)
          ("run_pymol_command", (⟨some "turn", []⟩ : ToolArgs), false) 4)).2.getLast? =
            some (some r) ∧ r.loopType = "command_family_oscillation") :=
  ⟨⟨by decide, by decide, by decide⟩,
    (doomLoopDetector_amended 3 (by decide) "run_pymol_command" ⟨some "zoom", []⟩ false
      (by decide) "run_pymol_command" "run_pymol_command" ⟨some "zoom", []⟩
      ⟨some "turn", []⟩ false false (by decide) (by decide) (by decide)).1,
    (doomLoopDetector_amended 3 (by decide) "run_pymol_command" ⟨some "zoom", []⟩ false
      (by decide) "run_pymol_command" "run_pymol_command" ⟨some "zoom", []⟩
      ⟨some "turn", []⟩ false false (by decide) (by decide) (by decide)).2 (by decide)⟩

end PyMolAI
